import Mathlib

/-!
Verification of the `diskmanager` core of the embroidery-buddy repository.

The Go sources are embedded shallowly:

* `normalizePath` (src/internal/diskmanager/manager.go, lines 142-152) prefixes
  the input with `/` when missing and then applies Go's lexical `path.Clean`.
  Since the argument handed to `path.Clean` there always starts with `/`, the
  embedding `cleanRooted` models `path.Clean` restricted to rooted inputs:
  split on `/`, drop empty and `.` components, resolve `..` against the stack
  (discarding `..` at the root, as Go does for rooted paths), and rejoin.
* the FAT32 filesystem handle obtained from the external go-diskfs library is
  modelled as an abstract in-memory filesystem (`Fs`): an association list of
  file contents plus a list of directories, with the root `/` always a
  directory.  Bytes are `Nat` values; an `io.Reader` data source is a byte
  list that is consumed functionally, the unconsumed remainder being returned.
* `Manager.BeginTransaction`, `Transaction.WriteFile`, `Manager.ReadFile`
  (manager.go), the `DiskfsFilesystemWriter` (src/unnamed/part_008) and
  `LoopbackFilesystemWriter` (src/unnamed/part_010) write backends, and the
  USB gadget implementations (src/internal/diskmanager/usb_gadget_noop.go and
  src/unnamed/part_015) are embedded as explicit state-passing functions.
  `BeginTransaction` is generic over the `UsbGadget` interface, modelled as a
  record of `disconnect`/`reconnect` transition functions.
-/

namespace EmbroideryBuddy

/-- Errors of the diskmanager package.  The sentinel values of manager.go
(`ErrDiskNotInitialized`, `ErrFileNotFound`, `ErrInvalidPath`, `ErrDiskFull`)
become constructors; `backendNotExist` marks a backend failure for which Go's
`os.IsNotExist` holds or whose message contains "does not exist";
`wrapped ctx e` models `fmt.Errorf(ctx + ": %w", e)`. -/
inductive Err where
  | diskNotInitialized
  | fileNotFound
  | invalidPath
  | diskFull
  | backendNotExist (msg : String)
  | backend (msg : String)
  | wrapped (ctx : String) (e : Err)
deriving DecidableEq, Repr

/-- Go's `errors.Is`: the target is the error itself or appears in its
unwrap chain. -/
def errIs : Err → Err → Bool
  | .wrapped c i, target => (Err.wrapped c i = target) || errIs i target
  | e, target => e = target

/-! ### Path normalization (manager.go lines 142-152) -/

/-- Splitting a character list at every `/`, as Go's `strings.Split(s, "/")`
does; always returns at least one (possibly empty) component. -/
def splitSlash : List Char → List (List Char)
  | [] => [[]]
  | c :: rest =>
    if c = '/' then [] :: splitSlash rest
    else
      match splitSlash rest with
      | [] => [[c]]
      | h :: t => (c :: h) :: t

/-- Joining components with `/` separators (inverse of `splitSlash`). -/
def joinSlash : List (List Char) → List Char
  | [] => []
  | [x] => x
  | x :: y :: t => x ++ '/' :: joinSlash (y :: t)

/-- The element loop of Go's `path.Clean` for a rooted path: empty and `.`
components are dropped, `..` pops the last kept component (and is discarded
at the root), every other component is kept. -/
def resolveAux : List (List Char) → List (List Char) → List (List Char)
  | acc, [] => acc.reverse
  | acc, c :: rest =>
    if c = [] ∨ c = ['.'] then resolveAux acc rest
    else if c = ['.', '.'] then resolveAux acc.tail rest
    else resolveAux (c :: acc) rest

/-- Go's `path.Clean` restricted to rooted inputs, which is the only way
`normalizePath` invokes it (it prefixes `/` first). -/
def cleanRooted (l : List Char) : List Char :=
  match resolveAux [] (splitSlash l) with
  | [] => ['/']
  | comps => '/' :: joinSlash comps

/-- `normalizePath` from manager.go: ensure the path starts with `/`
(`strings.HasPrefix` / prepend), then `path.Clean` it. -/
def normalizePath (p : String) : String :=
  let rooted := if p.data.head? = some '/' then p.data else '/' :: p.data
  ⟨cleanRooted rooted⟩

/-- Go's `path.Dir`, for the cleaned rooted paths `Transaction.WriteFile`
applies it to: everything before the last component, `/` if nothing is left. -/
def pathDir (p : String) : String :=
  let comps := (splitSlash p.data).filter (fun c => !c.isEmpty)
  match comps.dropLast with
  | [] => "/"
  | cs => ⟨'/' :: joinSlash cs⟩

/-- Go's `filepath.Dir`, for the already-clean absolute host paths the
loopback writer applies it to: drop the last `/`-separated component. -/
def stringDir (s : String) : String :=
  match (splitSlash s.data).dropLast with
  | [] => "."
  | ds => ⟨joinSlash ds⟩

/-! ### The filesystem handle (go-diskfs boundary model)

go-diskfs is an external collaborator; the spec's non-goals delegate the
filesystem format to it.  `Fs` models the contract `Manager` relies on:
an association list of file contents plus created directories, the root `/`
always being a directory. -/

structure Fs where
  dirs : List String
  files : List (String × List Nat)
deriving DecidableEq, Repr

/-- Association-list lookup of a file's content. -/
def findFile : List (String × List Nat) → String → Option (List Nat)
  | [], _ => none
  | (q, c) :: rest, p => if q = p then some c else findFile rest p

/-- Remove a file entry (used when a path is re-created). -/
def eraseFile : List (String × List Nat) → String → List (String × List Nat)
  | [], _ => []
  | (q, c) :: rest, p => if q = p then eraseFile rest p else (q, c) :: eraseFile rest p

def Fs.isDir (fs : Fs) (p : String) : Bool :=
  p = "/" || fs.dirs.contains p

/-- go-diskfs `FileSystem.Mkdir`: creating an already existing directory is
not an error (the library behaves like `MkdirAll`); creating a directory
where a file already sits fails with a generic backend error. -/
def Fs.mkdir (fs : Fs) (p : String) : Except Err Fs :=
  if (findFile fs.files p).isSome then
    .error (.backend "cannot create directory over existing file")
  else if fs.isDir p then .ok fs
  else .ok { fs with dirs := p :: fs.dirs }

/-- Go's `os.IsExist` on the modelled backend errors: the modelled `Mkdir`
reports "already exists" as success, so no modelled error satisfies it. -/
def osIsExist (_ : Err) : Bool := false

/-- Go's `path.Join(cur, part)` for a clean absolute `cur` and a clean
slash-free component `part`. -/
def joinComp (cur part : String) : String :=
  if cur = "/" then "/" ++ part else cur ++ "/" ++ part

/-- Go's `strings.Split(s, "/")`. -/
def splitOnSlash (s : String) : List String :=
  (splitSlash s.data).map (fun l => (⟨l⟩ : String))

/-- The loop body of `Manager.ensureDir` (manager.go lines 154-173): walk the
`/`-separated parts, skip empty ones, `Mkdir` each accumulated path, ignoring
"already exists" and failing on anything else.  Directories created before a
failure are kept, as in the source. -/
def ensureDirAux : Fs → String → List String → Except Err Unit × Fs
  | fs, _, [] => (.ok (), fs)
  | fs, cur, part :: rest =>
    if part = "" then ensureDirAux fs cur rest
    else
      let next := joinComp cur part
      match fs.mkdir next with
      | .ok fs' => ensureDirAux fs' next rest
      | .error e =>
        if osIsExist e then ensureDirAux fs next rest
        else (.error (.wrapped ("failed to create directory " ++ next) e), fs)

/-- `Manager.ensureDir`. -/
def Fs.ensureDir (fs : Fs) (dirPath : String) : Except Err Unit × Fs :=
  ensureDirAux fs "/" (splitOnSlash dirPath)

/-- go-diskfs `OpenFile` with `O_CREATE|O_RDWR|O_TRUNC`: a directory cannot
be opened as a file; otherwise the file is created or truncated to empty.
The parent directory always exists at the call sites (`ensureDir` ran, or
the parent is the root). -/
def Fs.openFileCreate (fs : Fs) (p : String) : Except Err Fs :=
  if fs.isDir p then .error (.backend "cannot open directory as file")
  else .ok { fs with files := (p, []) :: eraseFile fs.files p }

/-- go-diskfs `OpenFile` with `O_RDONLY`: a directory cannot be opened as a
file — this covers both named directories and the root `/`, which the
library short-circuits (for `/`, `path.Dir` and `path.Base` coincide);
otherwise a missing path yields a "does not exist" error. -/
def Fs.openFileRead (fs : Fs) (p : String) : Except Err (List Nat) :=
  if fs.isDir p then .error (.backend "cannot open directory as file")
  else
    match findFile fs.files p with
    | some c => .ok c
    | none => .error (.backendNotExist "target file does not exist")

/-- Replace (or create) a file's content. -/
def setFile (fs : Fs) (p : String) (content : List Nat) : Fs :=
  { fs with files := (p, content) :: eraseFile fs.files p }

/-- `isNotExist`-style classification used by `Manager.ReadFile`
(`os.IsNotExist(err) || strings.Contains(errStr, "does not exist")`). -/
def isNotExistErr : Err → Bool
  | .backendNotExist _ => true
  | _ => false

/-- `isOutOfSpaceError` (src/unnamed/part_010 lines 104-111): exact message
comparison with "no space left on device". -/
def isOutOfSpaceError : Err → Bool
  | .backend msg => msg = "no space left on device"
  | _ => false

/-! ### Transaction.WriteFile (manager.go lines 183-213) -/

/-- The create-and-copy tail shared by `Transaction.WriteFile`: create or
truncate the file at the (already normalized) path `p`, then
`io.CopyN(file, reader, size)` — which copies `min size (length of the
source)` bytes and treats early exhaustion of the source (`io.EOF`) as
success.  Returns the result, the filesystem after the call, and the
unconsumed remainder of the data source. -/
def txWriteOpen (fs1 : Fs) (p : String) (src : List Nat) (size : Nat) :
    Except Err Unit × Fs × List Nat :=
  match fs1.openFileCreate p with
  | .error e => (.error (.wrapped "failed to create file" e), fs1, src)
  | .ok fs2 =>
    (.ok (), setFile fs2 p (src.take (min size src.length)),
     src.drop (min size src.length))

/-- The body of `Transaction.WriteFile` (manager.go lines 183-213) once the
filesystem handle is known to be non-null: normalize the path, ensure the
parent directory when it is neither `/` nor `.`, then create and copy. -/
def txWriteFileFs (fs : Fs) (filePath : String) (src : List Nat) (size : Nat) :
    Except Err Unit × Fs × List Nat :=
  if pathDir (normalizePath filePath) ≠ "/" ∧ pathDir (normalizePath filePath) ≠ "." then
    match fs.ensureDir (pathDir (normalizePath filePath)) with
    | (.error e, fs1) => (.error (.wrapped "failed to ensure directory" e), fs1, src)
    | (.ok _, fs1) => txWriteOpen fs1 (normalizePath filePath) src size
  else txWriteOpen fs (normalizePath filePath) src size

/-- `Transaction.WriteFile` including the nil-handle check. -/
def txWriteFile (fsOpt : Option Fs) (filePath : String) (src : List Nat)
    (size : Nat) : Except Err Unit × Option Fs × List Nat :=
  match fsOpt with
  | none => (.error .diskNotInitialized, none, src)
  | some fs =>
    let r := txWriteFileFs fs filePath src size
    (r.1, some r.2.1, r.2.2)

/-- One `WriteFile` request of a transaction body. -/
structure WriteSpec where
  path : String
  src : List Nat
  size : Nat
deriving DecidableEq, Repr

/-- A transaction body that performs the given `WriteFile` calls in sequence
and returns the first error (mirroring the documented usage of
`BeginTransaction` and the bodies built by the upload layer). -/
def runWrites : Fs → List WriteSpec → Except Err Unit × Fs
  | fs, [] => (.ok (), fs)
  | fs, w :: rest =>
    match txWriteFileFs fs w.path w.src w.size with
    | (.ok _, fs', _) => runWrites fs' rest
    | (.error e, fs', _) => (.error e, fs')

/-! ### USB gadget variants -/

/-- `NoOpUsbGadget` (usb_gadget_noop.go): in-memory simulated controller
with Disconnect/Reconnect call counters. -/
structure NoOpUsbGadget where
  connected : Bool
  disconnectCalls : Nat
  reconnectCalls : Nat
deriving DecidableEq, Repr

/-- `NewNoOpUsbGadget`. -/
def NoOpUsbGadget.new : NoOpUsbGadget := ⟨false, 0, 0⟩

/-- `NoOpUsbGadget.Initialize`: always succeeds, sets connected. -/
def noopInitialize (g : NoOpUsbGadget) : Except Err Unit × NoOpUsbGadget :=
  (.ok (), { g with connected := true })

/-- `NoOpUsbGadget.Disconnect`: counts the call, clears connected, never
fails. -/
def noopDisconnect (g : NoOpUsbGadget) : Except Err Unit × NoOpUsbGadget :=
  (.ok (), { g with disconnectCalls := g.disconnectCalls + 1, connected := false })

/-- `NoOpUsbGadget.Reconnect`: counts the call, sets connected, never
fails. -/
def noopReconnect (g : NoOpUsbGadget) : Except Err Unit × NoOpUsbGadget :=
  (.ok (), { g with reconnectCalls := g.reconnectCalls + 1, connected := true })

/-- `LinuxUsbGadget` (src/unnamed/part_015): the state consulted by
`Reconnect` is the connected flag and the stored UDC name. -/
structure LinuxUsbGadget where
  connected : Bool
  udcName : String
deriving DecidableEq, Repr

/-- `LinuxUsbGadget.Reconnect` (part_015 lines 167-186).  The sysfs write to
the UDC attribute is an external effect whose outcome is passed in as
`sysfsWrite`; the no-UDC check happens before any sysfs access. -/
def linuxReconnect (g : LinuxUsbGadget) (sysfsWrite : Except Err Unit) :
    Except Err Unit × LinuxUsbGadget :=
  if g.connected then (.ok (), g)
  else if g.udcName = "" then
    (.error (.backend "no UDC name available, gadget may not have been initialized"), g)
  else
    match sysfsWrite with
    | .error e => (.error (.wrapped "failed to reconnect gadget" e), g)
    | .ok _ => (.ok (), { g with connected := true })

/-- The `UsbGadget` interface as consumed by `Manager.BeginTransaction`:
state-transition functions for Disconnect and Reconnect. -/
structure UsbGadgetOps (γ : Type) where
  disconnect : γ → Except Err Unit × γ
  reconnect : γ → Except Err Unit × γ

def noopOps : UsbGadgetOps NoOpUsbGadget := ⟨noopDisconnect, noopReconnect⟩

/-- A gadget with programmable Disconnect/Reconnect outcomes and call
counters, used to observe `BeginTransaction`'s behavior on controller
failures. -/
structure FaultGadget where
  disconnectErr : Option Err
  reconnectErr : Option Err
  disconnectCalls : Nat
  reconnectCalls : Nat
deriving DecidableEq, Repr

def faultDisconnect (g : FaultGadget) : Except Err Unit × FaultGadget :=
  ((match g.disconnectErr with
    | some e => .error e
    | none => .ok ()),
   { g with disconnectCalls := g.disconnectCalls + 1 })

def faultReconnect (g : FaultGadget) : Except Err Unit × FaultGadget :=
  ((match g.reconnectErr with
    | some e => .error e
    | none => .ok ()),
   { g with reconnectCalls := g.reconnectCalls + 1 })

def faultOps : UsbGadgetOps FaultGadget := ⟨faultDisconnect, faultReconnect⟩

/-! ### The Manager (manager.go) -/

/-- The manager state consulted by the embedded operations: the (possibly
null) filesystem handle and the injected USB gadget. -/
structure Manager (γ : Type) where
  filesystem : Option Fs
  gadget : γ

/-- `Manager.BeginTransaction` (manager.go lines 230-253): under the
exclusive lock, fail if the handle is null; Disconnect the gadget, aborting
with a wrapped error if that fails; run the body; always attempt Reconnect
(a Reconnect failure is only logged as a warning); return the body's
result. -/
def beginTransaction {γ : Type} (ops : UsbGadgetOps γ) (m : Manager γ)
    (fn : Fs → Except Err Unit × Fs) : Except Err Unit × Manager γ :=
  match m.filesystem with
  | none => (.error .diskNotInitialized, m)
  | some fs =>
    match ops.disconnect m.gadget with
    | (.error e, g1) =>
      (.error (.wrapped "failed to disconnect USB gadget" e), { m with gadget := g1 })
    | (.ok _, g1) =>
      let r := fn fs
      let rec2 := ops.reconnect g1
      (r.1, { filesystem := some r.2, gadget := rec2.2 })

/-- `Manager.ReadFile` (manager.go lines 256-278): under the shared lock,
fail if the handle is null; normalize the path; open for read, translating
"does not exist" backend errors into `ErrFileNotFound` and wrapping other
failures.  The returned stream is modelled by the file's byte content. -/
def Manager.readFile {γ : Type} (m : Manager γ) (filePath : String) :
    Except Err (List Nat) :=
  match m.filesystem with
  | none => .error .diskNotInitialized
  | some fs =>
    let p := normalizePath filePath
    match fs.openFileRead p with
    | .ok content => .ok content
    | .error e =>
      if isNotExistErr e then .error .fileNotFound
      else .error (.wrapped "failed to open file" e)

/-! ### FilesystemWriter variants -/

/-- A byte source as the upload layer hands it to the writers: the bytes the
stream delivers, followed by how it ends — `none` for a clean `io.EOF`,
`some e` for a failure that `io.Copy`/`io.CopyN` reports once the delivered
bytes are consumed (a broken network stream on the read side, or the
platform's "no space left on device" on the write side). -/
structure Reader where
  bytes : List Nat
  readErr : Option Err
deriving DecidableEq, Repr

/-- `splitPath` (src/unnamed/part_008 lines 58-72): peels off the final
component with `path.Split` repeatedly; on the slash-separated paths it
receives this yields exactly the nonempty components, in order. -/
def splitPathGo (p : String) : List String :=
  ((splitSlash p.data).filter (fun c => !c.isEmpty)).map (fun l => (⟨l⟩ : String))

/-- `DiskfsFilesystemWriter.ensureDir` (part_008 lines 33-56): like the
manager's, but maps out-of-space errors to `ErrDiskFull`. -/
def diskfsEnsureDirAux : Fs → String → List String → Except Err Unit × Fs
  | fs, _, [] => (.ok (), fs)
  | fs, cur, part :: rest =>
    if part = "" then diskfsEnsureDirAux fs cur rest
    else
      let next := joinComp cur part
      match fs.mkdir next with
      | .ok fs' => diskfsEnsureDirAux fs' next rest
      | .error e =>
        if osIsExist e then diskfsEnsureDirAux fs next rest
        else if isOutOfSpaceError e then (.error .diskFull, fs)
        else (.error (.wrapped ("failed to create directory " ++ next) e), fs)

/-- The create-and-copy tail of `DiskfsFilesystemWriter.WriteFile`
(part_008 lines 91-112): create/truncate, then `io.CopyN(file, reader,
size)`.  The copy stops after `size` bytes (no error is seen then); if the
source ends first, its final report surfaces: `io.EOF` is treated as
success, any other error takes the lines 103-110 branch — out-of-space
becomes `ErrDiskFull`, anything else a wrapped "failed to write file".  The
bytes delivered before a failure are already in the file. -/
def diskfsOpenCopy (fs1 : Fs) (p : String) (src : Reader) (size : Nat) :
    Except Err Unit × Fs × List Nat :=
  match fs1.openFileCreate p with
  | .error e =>
    ((if isOutOfSpaceError e then .error Err.diskFull
      else .error (.wrapped "failed to create file" e)), fs1, src.bytes)
  | .ok fs2 =>
    if size ≤ src.bytes.length then
      (.ok (), setFile fs2 p (src.bytes.take size), src.bytes.drop size)
    else
      match src.readErr with
      | none => (.ok (), setFile fs2 p src.bytes, [])
      | some e =>
        ((if isOutOfSpaceError e then .error Err.diskFull
          else .error (.wrapped "failed to write file" e)),
         setFile fs2 p src.bytes, [])

/-- The body of `DiskfsFilesystemWriter.WriteFile` (part_008 lines 75-113)
once the handle is known to be non-null: normalize, ensure the parent
directory, then create and copy. -/
def diskfsWriteFileFs (fs : Fs) (filePath : String) (src : Reader)
    (size : Nat) : Except Err Unit × Fs × List Nat :=
  if pathDir (normalizePath filePath) ≠ "/" ∧ pathDir (normalizePath filePath) ≠ "." then
    match diskfsEnsureDirAux fs "/" (splitPathGo (pathDir (normalizePath filePath))) with
    | (.error e, fs1) => (.error e, fs1, src.bytes)
    | (.ok _, fs1) => diskfsOpenCopy fs1 (normalizePath filePath) src size
  else diskfsOpenCopy fs (normalizePath filePath) src size

/-- `DiskfsFilesystemWriter.WriteFile` including the nil-handle check. -/
def diskfsWriteFile (fsOpt : Option Fs) (filePath : String) (src : Reader)
    (size : Nat) : Except Err Unit × Option Fs × List Nat :=
  match fsOpt with
  | none => (.error .diskNotInitialized, none, src.bytes)
  | some fs =>
    ((diskfsWriteFileFs fs filePath src size).1,
     some (diskfsWriteFileFs fs filePath src size).2.1,
     (diskfsWriteFileFs fs filePath src size).2.2)

/-- `LoopbackFilesystemWriter` (src/unnamed/part_010): disk path plus the
temporary mount point established by `Begin` ("" when not mounted). -/
structure LoopbackFilesystemWriter where
  diskPath : String
  mountDir : String
deriving DecidableEq, Repr

/-- Host-side `os.MkdirAll`: creating an existing directory succeeds; a file
standing at the path fails.  Ancestors are created along with the full path
(the model records the full directory path). -/
def hostMkdirAll (fs : Fs) (dir : String) : Except Err Fs :=
  if (findFile fs.files dir).isSome then .error (.backend "mkdir: not a directory")
  else if fs.isDir dir then .ok fs
  else .ok { fs with dirs := dir :: fs.dirs }

/-- `LoopbackFilesystemWriter.WriteFile` (part_010 lines 45-102): check the
mount, normalize, join onto the mount point, `MkdirAll` the parent,
create/truncate the file, then `io.Copy` through the buffered writer — the
WHOLE source is copied; the `size` parameter is deliberately ignored ("The
size parameter is provided for information but we'll copy everything").  A
failure the copy or the flush reports (lines 83-99) is mapped to
`ErrDiskFull` when out of space and wrapped otherwise. -/
def loopbackWriteFile (w : LoopbackFilesystemWriter) (host : Fs)
    (filePath : String) (src : Reader) (size : Nat) :
    Except Err Unit × Fs × List Nat :=
  if w.mountDir = "" then
    (.error (.backend "filesystem not mounted"), host, src.bytes)
  else
    match hostMkdirAll host (stringDir (w.mountDir ++ normalizePath filePath)) with
    | .error e =>
      ((if isOutOfSpaceError e then .error Err.diskFull
        else .error (.wrapped "failed to create directory" e)), host, src.bytes)
    | .ok host1 =>
      match host1.openFileCreate (w.mountDir ++ normalizePath filePath) with
      | .error e =>
        ((if isOutOfSpaceError e then .error Err.diskFull
          else .error (.wrapped "failed to create file" e)), host1, src.bytes)
      | .ok host2 =>
        match src.readErr with
        | none =>
          (.ok (), setFile host2 (w.mountDir ++ normalizePath filePath)
            src.bytes, [])
        | some e =>
          ((if isOutOfSpaceError e then .error Err.diskFull
            else .error (.wrapped "failed to write file" e)),
           setFile host2 (w.mountDir ++ normalizePath filePath) src.bytes, [])

/-! ## Lemmas -/

/-! ### Path normalization -/

theorem splitSlash_ne_nil (l : List Char) : splitSlash l ≠ [] := by
  cases l with
  | nil => simp [splitSlash]
  | cons c rest =>
    simp only [splitSlash]
    split
    · simp
    · split <;> simp

theorem noSlash_of_mem_splitSlash {l : List Char} {x : List Char}
    (hx : x ∈ splitSlash l) : '/' ∉ x := by
  induction l generalizing x with
  | nil =>
    simp [splitSlash] at hx
    subst hx; simp
  | cons c rest ih =>
    simp only [splitSlash] at hx
    split at hx
    · rcases List.mem_cons.mp hx with h | h
      · subst h; simp
      · exact ih h
    · rename_i hc
      rcases hsp : splitSlash rest with _ | ⟨h0, t0⟩
      · exact absurd hsp (splitSlash_ne_nil rest)
      · rw [hsp] at hx
        rcases List.mem_cons.mp hx with h | h
        · subst h
          intro hmem
          rcases List.mem_cons.mp hmem with h' | h'
          · exact hc h'.symm
          · exact ih (by rw [hsp]; exact List.mem_cons_self _ _) h'
        · exact ih (by rw [hsp]; exact List.mem_cons_of_mem _ h)

theorem splitSlash_append {x rest : List Char} {h : List Char} {t : List (List Char)}
    (hx : '/' ∉ x) (hrest : splitSlash rest = h :: t) :
    splitSlash (x ++ rest) = (x ++ h) :: t := by
  induction x with
  | nil => simpa using hrest
  | cons c cs ih =>
    have hc : c ≠ '/' := by
      intro hcEq; exact hx (by simp [hcEq])
    have hcs : '/' ∉ cs := fun hm => hx (List.mem_cons_of_mem _ hm)
    simp only [List.cons_append, splitSlash]
    rw [if_neg (by simpa using fun hEq => hc hEq)]
    rw [show cs.append rest = cs ++ rest from rfl, ih hcs]

theorem splitSlash_noSlash {x : List Char} (hx : '/' ∉ x) :
    splitSlash x = [x] := by
  have h0 : splitSlash ([] : List Char) = [] :: [] := rfl
  have := @splitSlash_append x [] [] [] hx h0
  simpa using this

theorem splitSlash_joinSlash {comps : List (List Char)} (hne : comps ≠ [])
    (hp : ∀ x ∈ comps, '/' ∉ x) :
    splitSlash (joinSlash comps) = comps := by
  induction comps with
  | nil => exact absurd rfl hne
  | cons x rest ih =>
    cases rest with
    | nil =>
      simpa [joinSlash] using splitSlash_noSlash (hp x (List.mem_cons_self _ _))
    | cons y t =>
      have hrest : splitSlash ('/' :: joinSlash (y :: t)) =
          [] :: splitSlash (joinSlash (y :: t)) := by
        simp [splitSlash]
      have hihres : splitSlash (joinSlash (y :: t)) = y :: t :=
        ih (by simp) (fun z hz => hp z (List.mem_cons_of_mem _ hz))
      rw [hihres] at hrest
      have := splitSlash_append (hp x (List.mem_cons_self _ _)) hrest
      simpa [joinSlash] using this

/-- A component kept by `resolveAux`: nonempty, not `.`, not `..`, slash-free. -/
def regularComp (x : List Char) : Prop :=
  x ≠ [] ∧ x ≠ ['.'] ∧ x ≠ ['.', '.'] ∧ '/' ∉ x

theorem resolveAux_regular {inp acc : List (List Char)}
    (hacc : ∀ x ∈ acc, regularComp x) (hinp : ∀ x ∈ inp, '/' ∉ x) :
    ∀ x ∈ resolveAux acc inp, regularComp x := by
  induction inp generalizing acc with
  | nil =>
    intro x hx
    simp only [resolveAux] at hx
    exact hacc x (List.mem_reverse.mp hx)
  | cons c rest ih =>
    intro x hx
    simp only [resolveAux] at hx
    split at hx
    · exact ih hacc (fun z hz => hinp z (List.mem_cons_of_mem _ hz)) x hx
    · split at hx
      · refine ih ?_ (fun z hz => hinp z (List.mem_cons_of_mem _ hz)) x hx
        intro z hz
        exact hacc z (List.mem_of_mem_tail hz)
      · refine ih ?_ (fun z hz => hinp z (List.mem_cons_of_mem _ hz)) x hx
        intro z hz
        rcases List.mem_cons.mp hz with h | h
        · subst h
          rename_i hnotdot hnotdd
          refine ⟨?_, ?_, ?_, hinp z (List.mem_cons_self _ _)⟩
          · intro hEq; exact hnotdot (Or.inl hEq)
          · intro hEq; exact hnotdot (Or.inr hEq)
          · exact hnotdd
        · exact hacc z h

theorem resolveAux_of_regular {inp acc : List (List Char)}
    (hinp : ∀ x ∈ inp, regularComp x) :
    resolveAux acc inp = acc.reverse ++ inp := by
  induction inp generalizing acc with
  | nil => simp [resolveAux]
  | cons c rest ih =>
    obtain ⟨hne, hnotdot, hnotdd, _⟩ := hinp c (List.mem_cons_self _ _)
    simp only [resolveAux]
    rw [if_neg (by simp [hne, hnotdot]), if_neg hnotdd,
      ih (fun z hz => hinp z (List.mem_cons_of_mem _ hz))]
    simp

theorem cleanRooted_head (l : List Char) : ∃ t, cleanRooted l = '/' :: t := by
  unfold cleanRooted
  rcases h : resolveAux [] (splitSlash l) with _ | ⟨c, cs⟩
  · exact ⟨[], rfl⟩
  · exact ⟨joinSlash (c :: cs), rfl⟩

theorem cleanRooted_idem (l : List Char) :
    cleanRooted (cleanRooted l) = cleanRooted l := by
  have hreg : ∀ x ∈ resolveAux [] (splitSlash l), regularComp x :=
    resolveAux_regular (by simp) (fun x hx => noSlash_of_mem_splitSlash hx)
  rcases h : resolveAux [] (splitSlash l) with _ | ⟨c, cs⟩
  · -- the clean result is "/" and cleaning "/" is "/" again
    have h1 : cleanRooted l = ['/'] := by unfold cleanRooted; rw [h]
    rw [h1]
    rfl
  · have h1 : cleanRooted l = '/' :: joinSlash (c :: cs) := by
      unfold cleanRooted; rw [h]
    rw [h] at hreg
    have hregcc : ∀ x ∈ (c :: cs), regularComp x := hreg
    have hsplit : splitSlash (joinSlash (c :: cs)) = c :: cs :=
      splitSlash_joinSlash (by simp) (fun x hx => (hregcc x hx).2.2.2)
    have hsplitSlash : splitSlash ('/' :: joinSlash (c :: cs)) =
        [] :: c :: cs := by
      have hstep : splitSlash ('/' :: joinSlash (c :: cs)) =
          [] :: splitSlash (joinSlash (c :: cs)) := by
        simp [splitSlash]
      rw [hstep, hsplit]
    have hres : resolveAux [] ([] :: c :: cs) = c :: cs := by
      simp only [resolveAux, if_pos (Or.inl rfl)]
      exact resolveAux_of_regular hregcc
    rw [h1]
    unfold cleanRooted
    rw [hsplitSlash, hres]

/-- The cleaned result always starts with `/`, hence feeding a
`normalizePath` output back in skips the prefixing step. -/
theorem normalizePath_data (p : String) :
    ∃ t, (normalizePath p).data = '/' :: t := by
  unfold normalizePath
  dsimp only
  split <;> exact cleanRooted_head _

theorem normalizePath_of_rooted (q : String) (t : List Char)
    (ht : q.data = '/' :: t) : normalizePath q = ⟨cleanRooted q.data⟩ := by
  unfold normalizePath
  rw [ht]
  simp

theorem normalizePath_idem (p : String) :
    normalizePath (normalizePath p) = normalizePath p := by
  obtain ⟨t, ht⟩ := normalizePath_data p
  rw [normalizePath_of_rooted _ t ht]
  have hinner : (normalizePath p).data = cleanRooted
      (if p.data.head? = some '/' then p.data else '/' :: p.data) := rfl
  rw [hinner, cleanRooted_idem]
  rfl

/-! ### Filesystem model lemmas -/

theorem errIs_self (e : Err) : errIs e e = true := by
  cases e <;> simp [errIs]

theorem errIs_wrapped (ctx : String) (e : Err) :
    errIs (.wrapped ctx e) e = true := by
  simp [errIs, errIs_self]

theorem take_min_length (src : List Nat) (size : Nat) :
    src.take (min size src.length) = src.take size := by
  rcases Nat.le_total size src.length with h | h
  · rw [Nat.min_eq_left h]
  · rw [Nat.min_eq_right h, List.take_length, List.take_of_length_le h]

theorem drop_min_length (src : List Nat) (size : Nat) :
    src.drop (min size src.length) = src.drop size := by
  rcases Nat.le_total size src.length with h | h
  · rw [Nat.min_eq_left h]
  · rw [Nat.min_eq_right h, List.drop_length, List.drop_of_length_le h]

theorem findFile_eraseFile (files : List (String × List Nat)) (p q : String) :
    findFile (eraseFile files p) q = if q = p then none else findFile files q := by
  induction files with
  | nil => simp [eraseFile, findFile]
  | cons kv rest ih =>
    obtain ⟨k, c⟩ := kv
    by_cases hk : k = p
    · have he : eraseFile ((k, c) :: rest) p = eraseFile rest p := by
        simp [eraseFile, hk]
      rw [he, ih]
      by_cases hq : q = p
      · rw [if_pos hq, if_pos hq]
      · rw [if_neg hq, if_neg hq]
        have hkq : ¬ k = q := fun hEq => hq (hEq.symm.trans hk)
        simp only [findFile]
        rw [if_neg hkq]
    · have he : eraseFile ((k, c) :: rest) p = (k, c) :: eraseFile rest p := by
        simp [eraseFile, hk]
      rw [he]
      simp only [findFile]
      by_cases hkq : k = q
      · have hqp : ¬ q = p := fun hEq => hk (hkq.trans hEq)
        rw [if_pos hkq, if_neg hqp, if_pos hkq]
      · rw [if_neg hkq, ih]
        by_cases hq : q = p
        · rw [if_pos hq, if_pos hq]
        · rw [if_neg hq, if_neg hq, if_neg hkq]

theorem findFile_setFile (fs : Fs) (p q : String) (c : List Nat) :
    findFile (setFile fs p c).files q =
      if q = p then some c else findFile fs.files q := by
  unfold setFile
  by_cases hq : q = p
  · simp [findFile, hq]
  · simp only [findFile]
    rw [if_neg (fun hEq => hq hEq.symm), findFile_eraseFile, if_neg hq,
      if_neg hq]

theorem mkdir_ok_files {fs : Fs} {p : String} {fs' : Fs}
    (h : fs.mkdir p = .ok fs') : fs'.files = fs.files := by
  unfold Fs.mkdir at h
  split at h
  · cases h
  · split at h
    · cases h; rfl
    · cases h; rfl

theorem ensureDirAux_files (fs : Fs) (cur : String) (parts : List String) :
    ((ensureDirAux fs cur parts).2).files = fs.files := by
  induction parts generalizing fs cur with
  | nil => rfl
  | cons part rest ih =>
    simp only [ensureDirAux]
    split
    · exact ih fs cur
    · rcases hmk : fs.mkdir (joinComp cur part) with e | fs'
      · simp [hmk, osIsExist]
      · simp only [hmk]
        rw [ih fs' (joinComp cur part)]
        exact mkdir_ok_files hmk

theorem openFileCreate_ok {fs : Fs} {p : String} {fs' : Fs}
    (h : fs.openFileCreate p = .ok fs') :
    fs'.files = (p, []) :: eraseFile fs.files p ∧ fs'.dirs = fs.dirs ∧
      fs.isDir p = false := by
  unfold Fs.openFileCreate at h
  split at h
  · cases h
  · cases h
    rename_i hguard
    exact ⟨rfl, rfl, by simpa using hguard⟩

theorem setFile_isDir (fs : Fs) (p : String) (c : List Nat) (q : String) :
    (setFile fs p c).isDir q = fs.isDir q := rfl

theorem isDir_of_dirs_eq {fs fs' : Fs} (h : fs'.dirs = fs.dirs) (p : String) :
    fs'.isDir p = fs.isDir p := by
  unfold Fs.isDir
  rw [h]

/-- Complete case analysis of `Transaction.WriteFile`'s write step: either it
fails, leaving file contents untouched (directories may have been created),
or it succeeds, setting the normalized path to the first `size` source bytes
and leaving every other file as it was. -/
theorem txWriteFileFs_cases (fs : Fs) (filePath : String) (src : List Nat)
    (size : Nat) :
    (∃ e fs1, txWriteFileFs fs filePath src size = (.error e, fs1, src) ∧
        fs1.files = fs.files) ∨
    (∃ fs2, txWriteFileFs fs filePath src size =
        (.ok (), setFile fs2 (normalizePath filePath) (src.take size),
         src.drop size) ∧
        fs2.files = ((normalizePath filePath, []) ::
          eraseFile fs.files (normalizePath filePath)) ∧
        fs2.isDir (normalizePath filePath) = false) := by
  unfold txWriteFileFs
  split
  · rcases hed : fs.ensureDir (pathDir (normalizePath filePath)) with ⟨res, fs1⟩
    have hf1 : fs1.files = fs.files := by
      have h0 := ensureDirAux_files fs "/"
        (splitOnSlash (pathDir (normalizePath filePath)))
      unfold Fs.ensureDir at hed
      rw [hed] at h0
      exact h0
    rcases res with e | u
    · simp only [hed]
      exact Or.inl ⟨.wrapped "failed to ensure directory" e, fs1, rfl, hf1⟩
    · simp only [hed]
      unfold txWriteOpen
      rcases hop : fs1.openFileCreate (normalizePath filePath) with e | fs2
      · exact Or.inl ⟨.wrapped "failed to create file" e, fs1, rfl, hf1⟩
      · obtain ⟨hfi, hdirs, hnd⟩ := openFileCreate_ok hop
        refine Or.inr ⟨fs2, ?_, ?_, ?_⟩
        · rw [take_min_length, drop_min_length]
        · rw [hfi, hf1]
        · rw [isDir_of_dirs_eq hdirs]
          exact hnd
  · unfold txWriteOpen
    rcases hop : fs.openFileCreate (normalizePath filePath) with e | fs2
    · exact Or.inl ⟨.wrapped "failed to create file" e, fs, rfl, rfl⟩
    · obtain ⟨hfi, hdirs, hnd⟩ := openFileCreate_ok hop
      refine Or.inr ⟨fs2, ?_, ?_, ?_⟩
      · rw [take_min_length, drop_min_length]
      · rw [hfi]
      · rw [isDir_of_dirs_eq hdirs]
        exact hnd

theorem txWriteFileFs_find_other (fs : Fs) (filePath : String) (src : List Nat)
    (size : Nat) (q : String) (hq : q ≠ normalizePath filePath) :
    findFile ((txWriteFileFs fs filePath src size).2.1).files q =
      findFile fs.files q := by
  rcases txWriteFileFs_cases fs filePath src size with
    ⟨e, fs1, heq, hf⟩ | ⟨fs2, heq, hf, -⟩
  · rw [heq]
    exact congrArg (fun l => findFile l q) hf
  · rw [heq]
    show findFile (setFile fs2 (normalizePath filePath) (src.take size)).files q = _
    rw [findFile_setFile, if_neg hq, hf]
    simp only [findFile]
    rw [if_neg (fun hEq => hq hEq.symm), findFile_eraseFile, if_neg hq]

theorem txWriteFileFs_ok_shape {fs : Fs} {filePath : String} {src : List Nat}
    {size : Nat} (h : (txWriteFileFs fs filePath src size).1 = .ok ()) :
    ∃ fs2, txWriteFileFs fs filePath src size =
      (.ok (), setFile fs2 (normalizePath filePath) (src.take size),
       src.drop size) ∧
      fs2.files = ((normalizePath filePath, []) ::
        eraseFile fs.files (normalizePath filePath)) ∧
      fs2.isDir (normalizePath filePath) = false := by
  rcases txWriteFileFs_cases fs filePath src size with
    ⟨e, fs1, heq, _⟩ | hok
  · rw [heq] at h; cases h
  · exact hok

theorem txWriteFileFs_ok_find_self {fs : Fs} {filePath : String}
    {src : List Nat} {size : Nat}
    (h : (txWriteFileFs fs filePath src size).1 = .ok ()) :
    findFile ((txWriteFileFs fs filePath src size).2.1).files
      (normalizePath filePath) = some (src.take size) := by
  obtain ⟨fs2, heq, -, -⟩ := txWriteFileFs_ok_shape h
  rw [heq]
  show findFile (setFile fs2 (normalizePath filePath) (src.take size)).files _ = _
  rw [findFile_setFile, if_pos rfl]

theorem txWriteFileFs_error_files {fs : Fs} {filePath : String}
    {src : List Nat} {size : Nat} {e : Err}
    (h : (txWriteFileFs fs filePath src size).1 = .error e) :
    ((txWriteFileFs fs filePath src size).2.1).files = fs.files := by
  rcases txWriteFileFs_cases fs filePath src size with
    ⟨e', fs1, heq, hf⟩ | ⟨fs2, heq, -, -⟩
  · rw [heq]; exact hf
  · rw [heq] at h; cases h

theorem runWrites_find_preserved (fs : Fs) (ws : List WriteSpec) (q : String)
    (hq : ∀ w ∈ ws, q ≠ normalizePath w.path) :
    findFile ((runWrites fs ws).2).files q = findFile fs.files q := by
  induction ws generalizing fs with
  | nil => rfl
  | cons w rest ih =>
    simp only [runWrites]
    rcases htx : txWriteFileFs fs w.path w.src w.size with ⟨r, fs', rem⟩
    have hfr : findFile fs'.files q = findFile fs.files q := by
      have hfo := txWriteFileFs_find_other fs w.path w.src w.size q
        (hq w (List.mem_cons_self _ _))
      rw [htx] at hfo
      exact hfo
    rcases r with e | u
    · exact hfr
    · rw [ih fs' (fun w' hw' => hq w' (List.mem_cons_of_mem _ hw')), hfr]

theorem runWrites_ok_contents : ∀ (ws : List WriteSpec) (fs fs1 : Fs),
    ws.Pairwise (fun a b => normalizePath a.path ≠ normalizePath b.path) →
    runWrites fs ws = (.ok (), fs1) →
    ∀ w ∈ ws, findFile fs1.files (normalizePath w.path) =
      some (w.src.take w.size) := by
  intro ws
  induction ws with
  | nil =>
    intro fs fs1 _ _ w hw
    cases hw
  | cons w0 rest ih =>
    intro fs fs1 hdist h w hw
    simp only [runWrites] at h
    rcases htx : txWriteFileFs fs w0.path w0.src w0.size with ⟨r, fs', rem⟩
    rw [htx] at h
    rcases r with e | u
    · simp at h
    · cases u
      have hrest : runWrites fs' rest = (.ok (), fs1) := h
      rcases List.mem_cons.mp hw with hw0 | hwr
      · subst hw0
        have hok : (txWriteFileFs fs w.path w.src w.size).1 = .ok () := by
          rw [htx]
        have hself := txWriteFileFs_ok_find_self hok
        rw [htx] at hself
        have hdiff := (List.pairwise_cons.mp hdist).1
        have hpres := runWrites_find_preserved fs' rest (normalizePath w.path)
          (fun w' hw' => hdiff w' hw')
        rw [hrest] at hpres
        exact hpres.trans hself
      · exact ih fs' fs1 (List.pairwise_cons.mp hdist).2 hrest w hwr

theorem runWrites_append : ∀ (xs : List WriteSpec) (fs : Fs) (ys : List WriteSpec),
    runWrites fs (xs ++ ys) =
      (match runWrites fs xs with
       | (.ok _, fs') => runWrites fs' ys
       | (.error e, fs') => (.error e, fs')) := by
  intro xs
  induction xs with
  | nil => intro fs ys; rfl
  | cons w rest ih =>
    intro fs ys
    simp only [List.cons_append, runWrites]
    rcases htx : txWriteFileFs fs w.path w.src w.size with ⟨r, fs', rem⟩
    rcases r with e | u
    · rfl
    · cases u
      exact ih fs' ys

/-- With the simulated gadget, `BeginTransaction` on an initialized manager
runs the body once between one Disconnect and one Reconnect. -/
theorem beginTransaction_noop (m : Manager NoOpUsbGadget) (fs : Fs)
    (hfs : m.filesystem = some fs) (fn : Fs → Except Err Unit × Fs) :
    beginTransaction noopOps m fn =
      ((fn fs).1,
       { filesystem := some (fn fs).2,
         gadget := ⟨true, m.gadget.disconnectCalls + 1,
                    m.gadget.reconnectCalls + 1⟩ }) := by
  unfold beginTransaction
  rw [hfs]
  rfl

theorem diskfsEnsureDirAux_files (fs : Fs) (cur : String) (parts : List String) :
    ((diskfsEnsureDirAux fs cur parts).2).files = fs.files := by
  induction parts generalizing fs cur with
  | nil => rfl
  | cons part rest ih =>
    simp only [diskfsEnsureDirAux]
    split
    · exact ih fs cur
    · rcases hmk : fs.mkdir (joinComp cur part) with e | fs'
      · simp only [hmk]
        split
        · exact ih fs (joinComp cur part)
        · split <;> rfl
      · simp only [hmk]
        rw [ih fs' (joinComp cur part)]
        exact mkdir_ok_files hmk

/-- Complete case analysis of the diskfs writer's write step, mirroring
`txWriteFileFs_cases`: either a pre-copy (directory or create) failure with
file contents untouched and the source unconsumed, or a successful copy of
the first `min size available` bytes, or a copy failure reported by the
source after delivering fewer than `size` bytes, with the delivered bytes
already in the file. -/
theorem diskfsWriteFileFs_cases (fs : Fs) (filePath : String) (src : Reader)
    (size : Nat) :
    (∃ e fs1, diskfsWriteFileFs fs filePath src size =
        (.error e, fs1, src.bytes) ∧ fs1.files = fs.files) ∨
    (∃ fs2, diskfsWriteFileFs fs filePath src size =
        (.ok (), setFile fs2 (normalizePath filePath) (src.bytes.take size),
         src.bytes.drop size) ∧
        fs2.files = ((normalizePath filePath, []) ::
          eraseFile fs.files (normalizePath filePath))) ∨
    (∃ e fs2, src.readErr = some e ∧ src.bytes.length < size ∧
        diskfsWriteFileFs fs filePath src size =
          (.error (if isOutOfSpaceError e = true then Err.diskFull
            else .wrapped "failed to write file" e),
           setFile fs2 (normalizePath filePath) src.bytes, []) ∧
        fs2.files = ((normalizePath filePath, []) ::
          eraseFile fs.files (normalizePath filePath))) := by
  unfold diskfsWriteFileFs
  split
  · rcases hed : diskfsEnsureDirAux fs "/"
        (splitPathGo (pathDir (normalizePath filePath))) with ⟨res, fs1⟩
    have hf1 : fs1.files = fs.files := by
      have h0 := diskfsEnsureDirAux_files fs "/"
        (splitPathGo (pathDir (normalizePath filePath)))
      rw [hed] at h0
      exact h0
    rcases res with e | u
    · simp only [hed]
      exact Or.inl ⟨e, fs1, rfl, hf1⟩
    · simp only [hed]
      unfold diskfsOpenCopy
      split
      · rename_i e hop
        by_cases hc : isOutOfSpaceError e = true
        · rw [if_pos hc]
          exact Or.inl ⟨Err.diskFull, fs1, rfl, hf1⟩
        · rw [if_neg hc]
          exact Or.inl ⟨.wrapped "failed to create file" e, fs1, rfl, hf1⟩
      · rename_i fs2 hop
        obtain ⟨hfi, -, -⟩ := openFileCreate_ok hop
        by_cases hsz : size ≤ src.bytes.length
        · rw [if_pos hsz]
          exact Or.inr (Or.inl ⟨fs2, rfl, by rw [hfi, hf1]⟩)
        · rw [if_neg hsz]
          have hlt : src.bytes.length < size := Nat.lt_of_not_le hsz
          have hle : src.bytes.length ≤ size := le_of_lt hlt
          split
          · refine Or.inr (Or.inl ⟨fs2, ?_, by rw [hfi, hf1]⟩)
            rw [List.take_of_length_le hle, List.drop_of_length_le hle]
          · rename_i e hre
            refine Or.inr (Or.inr ⟨e, fs2, hre, hlt, ?_, by rw [hfi, hf1]⟩)
            by_cases hc : isOutOfSpaceError e = true
            · rw [if_pos hc, if_pos hc]
            · rw [if_neg hc, if_neg hc]
  · unfold diskfsOpenCopy
    split
    · rename_i e hop
      by_cases hc : isOutOfSpaceError e = true
      · rw [if_pos hc]
        exact Or.inl ⟨Err.diskFull, fs, rfl, rfl⟩
      · rw [if_neg hc]
        exact Or.inl ⟨.wrapped "failed to create file" e, fs, rfl, rfl⟩
    · rename_i fs2 hop
      obtain ⟨hfi, -, -⟩ := openFileCreate_ok hop
      by_cases hsz : size ≤ src.bytes.length
      · rw [if_pos hsz]
        exact Or.inr (Or.inl ⟨fs2, rfl, by rw [hfi]⟩)
      · rw [if_neg hsz]
        have hlt : src.bytes.length < size := Nat.lt_of_not_le hsz
        have hle : src.bytes.length ≤ size := le_of_lt hlt
        split
        · refine Or.inr (Or.inl ⟨fs2, ?_, by rw [hfi]⟩)
          rw [List.take_of_length_le hle, List.drop_of_length_le hle]
        · rename_i e hre
          refine Or.inr (Or.inr ⟨e, fs2, hre, hlt, ?_, by rw [hfi]⟩)
          by_cases hc : isOutOfSpaceError e = true
          · rw [if_pos hc, if_pos hc]
          · rw [if_neg hc, if_neg hc]

theorem loopbackWriteFile_ok_shape {w : LoopbackFilesystemWriter} {host : Fs}
    {filePath : String} {src : Reader} {size : Nat} {r : Fs} {rem : List Nat}
    (h : loopbackWriteFile w host filePath src size = (.ok (), r, rem)) :
    findFile r.files (w.mountDir ++ normalizePath filePath) = some src.bytes ∧
      rem = [] := by
  unfold loopbackWriteFile at h
  split at h
  · simp at h
  · split at h
    · split at h <;> simp at h
    · split at h
      · split at h <;> simp at h
      · split at h
        · rw [Prod.mk.injEq, Prod.mk.injEq] at h
          obtain ⟨-, hr, hrem⟩ := h
          subst hr
          subst hrem
          exact ⟨by rw [findFile_setFile, if_pos rfl], rfl⟩
        · split at h <;> simp at h

/-! ## Claim theorems -/

/-- C1: for every manager with a non-null filesystem handle and every
transaction body `fn`, if the gadget's Disconnect returns an error then
`BeginTransaction` returns that error (wrapped, so `errors.Is` holds), the
body is never invoked (the result does not depend on `fn` at all), Reconnect
is never attempted (the gadget state is exactly the post-Disconnect state),
and no file content changes (the filesystem handle is returned untouched). -/
theorem c1_beginTransaction_disconnect_error_aborts {γ : Type}
    (ops : UsbGadgetOps γ) (m : Manager γ) (fs : Fs) (e : Err) (g1 : γ)
    (hfs : m.filesystem = some fs)
    (hdisc : ops.disconnect m.gadget = (.error e, g1))
    (fn : Fs → Except Err Unit × Fs) :
    beginTransaction ops m fn =
      (.error (.wrapped "failed to disconnect USB gadget" e),
       { filesystem := some fs, gadget := g1 }) ∧
    errIs (.wrapped "failed to disconnect USB gadget" e) e = true := by
  constructor
  · unfold beginTransaction
    rw [hfs, hdisc]
  · exact errIs_wrapped _ e

/-- C1 witness: a concrete fault-programmed gadget whose Disconnect fails;
the body that would write `/new.txt` never runs and the preexisting file
survives. -/
theorem c1_witness :
    beginTransaction faultOps
        ⟨some ⟨[], [("/old.txt", [1])]⟩,
         ⟨some (.backend "disconnect failed"), none, 0, 0⟩⟩
        (fun fs0 => runWrites fs0 [⟨"/new.txt", [2], 1⟩]) =
      (.error (.wrapped "failed to disconnect USB gadget"
        (.backend "disconnect failed")),
       { filesystem := some ⟨[], [("/old.txt", [1])]⟩,
         gadget := ⟨some (.backend "disconnect failed"), none, 1, 0⟩ }) ∧
    errIs (.wrapped "failed to disconnect USB gadget"
      (.backend "disconnect failed")) (.backend "disconnect failed") = true :=
  c1_beginTransaction_disconnect_error_aborts faultOps
    ⟨some ⟨[], [("/old.txt", [1])]⟩,
     ⟨some (.backend "disconnect failed"), none, 0, 0⟩⟩
    ⟨[], [("/old.txt", [1])]⟩ (.backend "disconnect failed")
    ⟨some (.backend "disconnect failed"), none, 1, 0⟩ rfl rfl
    (fun fs0 => runWrites fs0 [⟨"/new.txt", [2], 1⟩])

/-- C2: on an initialized manager with the simulated controller (whose
Disconnect always succeeds), a transaction whose body performs any sequence
of `WriteFile` calls increments the Disconnect and Reconnect call counters
by exactly one each, independent of the number of writes and of the body's
outcome. -/
theorem c2_single_disconnect_reconnect (m : Manager NoOpUsbGadget) (fs : Fs)
    (hfs : m.filesystem = some fs) (ws : List WriteSpec) :
    ((beginTransaction noopOps m
        (fun fs0 => runWrites fs0 ws)).2).gadget.disconnectCalls
      = m.gadget.disconnectCalls + 1 ∧
    ((beginTransaction noopOps m
        (fun fs0 => runWrites fs0 ws)).2).gadget.reconnectCalls
      = m.gadget.reconnectCalls + 1 := by
  rw [beginTransaction_noop m fs hfs]
  exact ⟨rfl, rfl⟩

/-- C2 witness: two writes in one transaction, counters go from 3/5 to
4/6. -/
theorem c2_witness :
    ((beginTransaction noopOps ⟨some ⟨[], []⟩, ⟨true, 3, 5⟩⟩
        (fun fs0 => runWrites fs0
          [⟨"/a", [1], 1⟩, ⟨"/b", [2], 1⟩])).2).gadget.disconnectCalls = 4 ∧
    ((beginTransaction noopOps ⟨some ⟨[], []⟩, ⟨true, 3, 5⟩⟩
        (fun fs0 => runWrites fs0
          [⟨"/a", [1], 1⟩, ⟨"/b", [2], 1⟩])).2).gadget.reconnectCalls = 6 :=
  c2_single_disconnect_reconnect ⟨some ⟨[], []⟩, ⟨true, 3, 5⟩⟩ ⟨[], []⟩ rfl
    [⟨"/a", [1], 1⟩, ⟨"/b", [2], 1⟩]

/-- C4: `normalizePath` is a pure function (a Lean `def`); it is idempotent
on every input string and meets the four concrete examples. -/
theorem c4_normalizePath_idempotent_and_examples :
    (∀ p : String, normalizePath (normalizePath p) = normalizePath p) ∧
    normalizePath "a/b" = "/a/b" ∧
    normalizePath "/a/./b" = "/a/b" ∧
    normalizePath "/a/../b" = "/b" ∧
    normalizePath "//a" = "/a" :=
  ⟨normalizePath_idem, by decide, by decide, by decide, by decide⟩

/-- C7: whenever the initial Disconnect succeeds, `BeginTransaction` runs
the body, attempts a Reconnect afterwards (the final gadget state is the
post-Reconnect state), and returns exactly the body's result with the body's
filesystem kept — the Reconnect outcome (even a failure) influences neither
the returned value nor the written files. -/
theorem c7_reconnect_best_effort {γ : Type} (ops : UsbGadgetOps γ)
    (m : Manager γ) (fs : Fs) (g1 : γ)
    (hfs : m.filesystem = some fs)
    (hdisc : ops.disconnect m.gadget = (.ok (), g1))
    (fn : Fs → Except Err Unit × Fs) :
    beginTransaction ops m fn =
      ((fn fs).1,
       { filesystem := some (fn fs).2, gadget := (ops.reconnect g1).2 }) := by
  unfold beginTransaction
  rw [hfs, hdisc]

/-- C7 witness: a gadget whose Reconnect is programmed to fail; the
transaction still returns the body's (successful) result and keeps its
write. -/
theorem c7_witness :
    beginTransaction faultOps
        ⟨some ⟨[], []⟩, ⟨none, some (.backend "reconnect failed"), 0, 0⟩⟩
        (fun fs0 => runWrites fs0 [⟨"/x", [9], 1⟩]) =
      ((runWrites ⟨[], []⟩ [⟨"/x", [9], 1⟩]).1,
       { filesystem := some (runWrites ⟨[], []⟩ [⟨"/x", [9], 1⟩]).2,
         gadget := ⟨none, some (.backend "reconnect failed"), 1, 1⟩ }) :=
  c7_reconnect_best_effort faultOps
    ⟨some ⟨[], []⟩, ⟨none, some (.backend "reconnect failed"), 0, 0⟩⟩
    ⟨[], []⟩ ⟨none, some (.backend "reconnect failed"), 1, 0⟩ rfl rfl
    (fun fs0 => runWrites fs0 [⟨"/x", [9], 1⟩])

/-- C3: writing a byte sequence `b` to a writable path `p` with
`size = length b` inside a transaction succeeds, and `ReadFile p` afterwards
returns exactly `b`.  "Valid path" is expressed as the write step reporting
success (which is independent of the data written). -/
theorem c3_write_read_roundtrip (m : Manager NoOpUsbGadget) (fs : Fs)
    (p : String) (b : List Nat)
    (hfs : m.filesystem = some fs)
    (hok : (txWriteFileFs fs p b b.length).1 = .ok ()) :
    (beginTransaction noopOps m
        (fun fs0 => runWrites fs0 [⟨p, b, b.length⟩])).1 = .ok () ∧
    Manager.readFile
      (beginTransaction noopOps m
        (fun fs0 => runWrites fs0 [⟨p, b, b.length⟩])).2 p = .ok b := by
  obtain ⟨fs2, heq, -, hnd⟩ := txWriteFileFs_ok_shape hok
  have hrun : runWrites fs [⟨p, b, b.length⟩] =
      (.ok (), setFile fs2 (normalizePath p) (b.take b.length)) := by
    simp only [runWrites, heq]
  rw [beginTransaction_noop m fs hfs]
  constructor
  · show (runWrites fs [⟨p, b, b.length⟩]).1 = .ok ()
    rw [hrun]
  · show Manager.readFile
      (⟨some (runWrites fs [⟨p, b, b.length⟩]).2, _⟩ : Manager NoOpUsbGadget) p
        = .ok b
    rw [hrun]
    unfold Manager.readFile
    dsimp only
    unfold Fs.openFileRead
    rw [if_neg (by simp [setFile_isDir, hnd])]
    rw [findFile_setFile, if_pos rfl, List.take_length]

/-- C3 witness: the two bytes `[72, 105]` written to `/test.txt` read back
unchanged. -/
theorem c3_witness :
    (beginTransaction noopOps
        (⟨some ⟨[], []⟩, ⟨true, 0, 0⟩⟩ : Manager NoOpUsbGadget)
        (fun fs0 => runWrites fs0 [⟨"/test.txt", [72, 105], 2⟩])).1 = .ok () ∧
    Manager.readFile
      (beginTransaction noopOps
        (⟨some ⟨[], []⟩, ⟨true, 0, 0⟩⟩ : Manager NoOpUsbGadget)
        (fun fs0 => runWrites fs0 [⟨"/test.txt", [72, 105], 2⟩])).2
      "/test.txt" = .ok [72, 105] :=
  c3_write_read_roundtrip ⟨some ⟨[], []⟩, ⟨true, 0, 0⟩⟩ ⟨[], []⟩
    "/test.txt" [72, 105] rfl rfl

/-- C10: when the data source holds more than `size` bytes, the
coordinator's `Transaction.WriteFile` succeeds, writes exactly the first
`size` bytes, and leaves the remaining bytes of the source unconsumed — it
truncates at `size` instead of copying the whole source. -/
theorem c10_writefile_truncates_at_size (fs : Fs) (p : String)
    (src : List Nat) (size : Nat)
    (hlong : size < src.length)
    (hok : (txWriteFileFs fs p src size).1 = .ok ()) :
    (txWriteFile (some fs) p src size).1 = .ok () ∧
    findFile ((txWriteFileFs fs p src size).2.1).files (normalizePath p)
      = some (src.take size) ∧
    (src.take size).length = size ∧
    (txWriteFile (some fs) p src size).2.2 = src.drop size ∧
    (src.drop size).length = src.length - size ∧
    src.drop size ≠ [] := by
  obtain ⟨fs2, heq, -, -⟩ := txWriteFileFs_ok_shape hok
  have hlen : (src.drop size).length = src.length - size := List.length_drop _ _
  refine ⟨?_, txWriteFileFs_ok_find_self hok, ?_, ?_, hlen, ?_⟩
  · show (txWriteFileFs fs p src size).1 = .ok ()
    rw [heq]
  · rw [List.length_take]
    exact Nat.min_eq_left (le_of_lt hlong)
  · show (txWriteFileFs fs p src size).2.2 = src.drop size
    rw [heq]
  · intro hnil
    rw [hnil] at hlen
    simp at hlen
    omega

/-- C10 witness: a three-byte source written with `size = 2` stores the
first two bytes and leaves one byte unconsumed. -/
theorem c10_witness :
    (txWriteFile (some ⟨[], []⟩) "/t" [1, 2, 3] 2).1 = .ok () ∧
    findFile ((txWriteFileFs ⟨[], []⟩ "/t" [1, 2, 3] 2).2.1).files
      (normalizePath "/t") = some (([1, 2, 3] : List Nat).take 2) ∧
    (([1, 2, 3] : List Nat).take 2).length = 2 ∧
    (txWriteFile (some ⟨[], []⟩) "/t" [1, 2, 3] 2).2.2 =
      ([1, 2, 3] : List Nat).drop 2 ∧
    (([1, 2, 3] : List Nat).drop 2).length = ([1, 2, 3] : List Nat).length - 2 ∧
    ([1, 2, 3] : List Nat).drop 2 ≠ [] :=
  c10_writefile_truncates_at_size ⟨[], []⟩ "/t" [1, 2, 3] 2 (by decide) rfl

/-- C5 counterexample: the loopback writer, given a cleanly ending 3-byte
source and `expectedSize = 1`, succeeds and stores all 3 bytes — more than
`expectedSize` bytes are written, refuting the claim for this variant. -/
theorem c5_counterexample_loopback_exceeds_size :
    (loopbackWriteFile ⟨"/disk.img", "/mnt"⟩ ⟨["/mnt"], []⟩ "/f.txt"
      ⟨[1, 2, 3], none⟩ 1).1 = .ok () ∧
    findFile (loopbackWriteFile ⟨"/disk.img", "/mnt"⟩ ⟨["/mnt"], []⟩ "/f.txt"
      ⟨[1, 2, 3], none⟩ 1).2.1.files "/mnt/f.txt" = some [1, 2, 3] ∧
    ¬ (([1, 2, 3] : List Nat).length ≤ 1) :=
  ⟨rfl, rfl, by decide⟩

/-- C5 amended: the diskfs variant copies at most `expectedSize` bytes — on
success the stored content is the first `expectedSize` source bytes (the
whole source when it is shorter) and the rest stays unconsumed — and a
cleanly ending source that is exhausted before `expectedSize` is never a
copy error (with such a source, any failure is a directory/create failure
that writes nothing and consumes nothing); the loopback variant
deliberately ignores `expectedSize` and always copies the entire source. -/
theorem c5_amended_copy_semantics :
    (∀ (fs : Fs) (p : String) (src : Reader) (size : Nat) (fsr : Option Fs)
        (rem : List Nat),
      diskfsWriteFile (some fs) p src size = (.ok (), fsr, rem) →
      rem = src.bytes.drop size ∧
      ∃ fs', fsr = some fs' ∧
        findFile fs'.files (normalizePath p) = some (src.bytes.take size) ∧
        (src.bytes.take size).length ≤ size) ∧
    (∀ (fs : Fs) (p : String) (src : Reader) (size : Nat),
      src.readErr = none → src.bytes.length < size →
      (diskfsWriteFileFs fs p src size).1 = .ok () ∨
      ∃ e fs1, diskfsWriteFileFs fs p src size = (.error e, fs1, src.bytes) ∧
        fs1.files = fs.files) ∧
    (∀ (w : LoopbackFilesystemWriter) (host : Fs) (p : String)
        (src : Reader) (size : Nat) (r : Fs) (rem : List Nat),
      loopbackWriteFile w host p src size = (.ok (), r, rem) →
      findFile r.files (w.mountDir ++ normalizePath p) = some src.bytes ∧
        rem = []) := by
  refine ⟨?_, ?_, ?_⟩
  · intro fs p src size fsr rem h
    have h' : ((diskfsWriteFileFs fs p src size).1,
        some (diskfsWriteFileFs fs p src size).2.1,
        (diskfsWriteFileFs fs p src size).2.2) = (.ok (), fsr, rem) := h
    rcases diskfsWriteFileFs_cases fs p src size with
      ⟨e, fs1, heq, -⟩ | ⟨fs2, heq, -⟩ | ⟨e, fs2, -, -, heq, -⟩
    · rw [heq] at h'
      simp at h'
    · rw [heq] at h'
      simp only [Prod.mk.injEq] at h'
      obtain ⟨-, hfsr, hrem⟩ := h'
      refine ⟨hrem.symm, setFile fs2 (normalizePath p) (src.bytes.take size),
        hfsr.symm, ?_, ?_⟩
      · rw [findFile_setFile, if_pos rfl]
      · rw [List.length_take]
        exact Nat.min_le_left _ _
    · rw [heq] at h'
      simp at h'
  · intro fs p src size hre hlt
    rcases diskfsWriteFileFs_cases fs p src size with
      ⟨e, fs1, heq, hf⟩ | ⟨fs2, heq, -⟩ | ⟨e, fs2, hre', -, -, -⟩
    · exact Or.inr ⟨e, fs1, heq, hf⟩
    · exact Or.inl (by rw [heq])
    · rw [hre] at hre'
      cases hre'
  · intro w host p src size r rem h
    exact loopbackWriteFile_ok_shape h

/-- C5 witness: the diskfs variant stores only the first of two source
bytes when `expectedSize = 1` and a one-byte source asked for five bytes is
not an error; the loopback variant stores both source bytes even with
`expectedSize = 1`. -/
theorem c5_witness :
    (([6] : List Nat) = (Reader.mk [5, 6] none).bytes.drop 1 ∧
      ∃ fs', (some (⟨[], [("/g", [5])]⟩ : Fs) : Option Fs) = some fs' ∧
        findFile fs'.files (normalizePath "/g") =
          some ((Reader.mk [5, 6] none).bytes.take 1) ∧
        ((Reader.mk [5, 6] none).bytes.take 1).length ≤ 1) ∧
    ((diskfsWriteFileFs ⟨[], []⟩ "/q" ⟨[9], none⟩ 5).1 = .ok () ∨
      ∃ e fs1, diskfsWriteFileFs ⟨[], []⟩ "/q" ⟨[9], none⟩ 5 =
          (.error e, fs1, (Reader.mk [9] none).bytes) ∧
        fs1.files = (Fs.mk [] []).files) ∧
    (findFile (⟨["/m"], [("/m/h", [7, 8])]⟩ : Fs).files
        ("/m" ++ normalizePath "/h") = some (Reader.mk [7, 8] none).bytes ∧
      ([] : List Nat) = []) :=
  ⟨c5_amended_copy_semantics.1 ⟨[], []⟩ "/g" ⟨[5, 6], none⟩ 1
      (some ⟨[], [("/g", [5])]⟩) [6] rfl,
   c5_amended_copy_semantics.2.1 ⟨[], []⟩ "/q" ⟨[9], none⟩ 5 rfl (by decide),
   c5_amended_copy_semantics.2.2 ⟨"/d.img", "/m"⟩ ⟨["/m"], []⟩ "/h"
      ⟨[7, 8], none⟩ 1 ⟨["/m"], [("/m/h", [7, 8])]⟩ [] rfl⟩

/-- C6 counterexample: the simulated controller, fresh from
`NewNoOpUsbGadget` with `Initialize` never called, returns success from
`Reconnect` (and flips to connected) instead of the explicit error the
claim requires of every variant. -/
theorem c6_counterexample_noop_reconnect_succeeds :
    (noopReconnect NoOpUsbGadget.new).1 = .ok () ∧
    (noopReconnect NoOpUsbGadget.new).2.connected = true :=
  ⟨rfl, rfl⟩

/-- C6 amended: only the hardware-backed variant returns an explicit error
from `Reconnect` when no controller binding was ever established; the
simulated variant's `Reconnect` unconditionally succeeds. -/
theorem c6_amended_reconnect_uninitialized (g : LinuxUsbGadget)
    (sysfsWrite : Except Err Unit)
    (hconn : g.connected = false) (hudc : g.udcName = "") :
    (linuxReconnect g sysfsWrite).1 =
      .error (.backend
        "no UDC name available, gadget may not have been initialized") ∧
    ∀ g' : NoOpUsbGadget, (noopReconnect g').1 = .ok () := by
  constructor
  · unfold linuxReconnect
    rw [hconn, hudc]
    rfl
  · intro g'
    rfl

/-- C6 witness: the freshly constructed hardware gadget state (not
connected, empty UDC name). -/
theorem c6_witness :
    (linuxReconnect ⟨false, ""⟩ (.ok ())).1 =
      .error (.backend
        "no UDC name available, gadget may not have been initialized") ∧
    ∀ g' : NoOpUsbGadget, (noopReconnect g').1 = .ok () :=
  c6_amended_reconnect_uninitialized ⟨false, ""⟩ (.ok ()) rfl rfl

/-- C8 counterexample: with the empty input string neither operation fails
with `ErrInvalidPath` — the empty path normalizes to `/`, the backend
short-circuits opening the root directory as a file, and both the write and
the read surface a generic wrapped backend error instead. -/
theorem c8_counterexample_empty_path :
    (txWriteFile (some ⟨[], []⟩) "" [7] 1).1 =
      .error (.wrapped "failed to create file"
        (.backend "cannot open directory as file")) ∧
    errIs (.wrapped "failed to create file"
      (.backend "cannot open directory as file")) .invalidPath = false ∧
    Manager.readFile
      (⟨some ⟨[], []⟩, (⟨false, 0, 0⟩ : NoOpUsbGadget)⟩ :
        Manager NoOpUsbGadget) "" =
      .error (.wrapped "failed to open file"
        (.backend "cannot open directory as file")) ∧
    errIs (.wrapped "failed to open file"
      (.backend "cannot open directory as file")) .invalidPath = false ∧
    normalizePath "" = "/" :=
  ⟨rfl, rfl, rfl, rfl, rfl⟩

/-- C8 amended: the empty input normalizes to `/`; both a write and a read
then fail with a generic wrapped backend error — the root directory cannot
be opened as a file — and never with `ErrInvalidPath`, which no code path
returns. -/
theorem c8_amended_empty_path_behavior :
    normalizePath "" = "/" ∧
    (∀ (fs : Fs) (src : List Nat) (size : Nat),
      (txWriteFileFs fs "" src size).1 =
        .error (.wrapped "failed to create file"
          (.backend "cannot open directory as file")) ∧
      errIs (.wrapped "failed to create file"
        (.backend "cannot open directory as file")) .invalidPath = false) ∧
    (∀ {γ : Type} (m : Manager γ) (fs : Fs), m.filesystem = some fs →
      Manager.readFile m "" =
        .error (.wrapped "failed to open file"
          (.backend "cannot open directory as file")) ∧
      errIs (.wrapped "failed to open file"
        (.backend "cannot open directory as file")) .invalidPath = false) := by
  refine ⟨rfl, ?_, ?_⟩
  · intro fs src size
    constructor
    · have hnp : normalizePath "" = "/" := rfl
      unfold txWriteFileFs
      rw [hnp]
      rw [if_neg (by decide)]
      unfold txWriteOpen Fs.openFileCreate
      rw [if_pos (by simp [Fs.isDir])]
    · rfl
  · intro γ m fs hfs
    constructor
    · have hnp : normalizePath "" = "/" := rfl
      unfold Manager.readFile
      rw [hfs]
      dsimp only
      rw [hnp]
      unfold Fs.openFileRead
      rw [if_pos (by simp [Fs.isDir])]
      rfl
    · rfl

/-- C8 witness: a concrete filesystem with one directory and one file. -/
theorem c8_witness :
    ((txWriteFileFs ⟨[], []⟩ "" [7] 1).1 =
      .error (.wrapped "failed to create file"
        (.backend "cannot open directory as file")) ∧
      errIs (.wrapped "failed to create file"
        (.backend "cannot open directory as file")) .invalidPath = false) ∧
    (Manager.readFile
      (⟨some ⟨["/d"], [("/f", [1])]⟩, (0 : Nat)⟩ : Manager Nat) "" =
      .error (.wrapped "failed to open file"
        (.backend "cannot open directory as file")) ∧
      errIs (.wrapped "failed to open file"
        (.backend "cannot open directory as file")) .invalidPath = false) :=
  ⟨c8_amended_empty_path_behavior.2.1 ⟨[], []⟩ [7] 1,
   c8_amended_empty_path_behavior.2.2
     (⟨some ⟨["/d"], [("/f", [1])]⟩, (0 : Nat)⟩ : Manager Nat)
     ⟨["/d"], [("/f", [1])]⟩ rfl⟩

/-- C9: in one transaction that performs several writes with distinct
normalized target paths, if every write in the initial segment succeeds and
the next write fails, the transaction returns that error while every file
written by the initial segment keeps its content — no rollback happens. -/
theorem c9_partial_commit (m : Manager NoOpUsbGadget) (fs fs1 : Fs)
    (pre : List WriteSpec) (bad : WriteSpec) (e : Err)
    (hfs : m.filesystem = some fs)
    (hpre : runWrites fs pre = (.ok (), fs1))
    (hbad : (txWriteFileFs fs1 bad.path bad.src bad.size).1 = .error e)
    (hdist : pre.Pairwise
      (fun a b => normalizePath a.path ≠ normalizePath b.path)) :
    (beginTransaction noopOps m
        (fun fs0 => runWrites fs0 (pre ++ [bad]))).1 = .error e ∧
    ((beginTransaction noopOps m
        (fun fs0 => runWrites fs0 (pre ++ [bad]))).2).filesystem
      = some (runWrites fs (pre ++ [bad])).2 ∧
    ∀ w ∈ pre,
      findFile ((runWrites fs (pre ++ [bad])).2).files (normalizePath w.path)
        = some (w.src.take w.size) := by
  rcases htx : txWriteFileFs fs1 bad.path bad.src bad.size with ⟨r, fsb, rem⟩
  have hr : r = .error e := by
    rw [htx] at hbad
    exact hbad
  subst hr
  have happ : runWrites fs (pre ++ [bad]) = (.error e, fsb) := by
    rw [runWrites_append pre fs [bad], hpre]
    show runWrites fs1 [bad] = (.error e, fsb)
    simp only [runWrites, htx]
  rw [beginTransaction_noop m fs hfs]
  refine ⟨?_, rfl, ?_⟩
  · show (runWrites fs (pre ++ [bad])).1 = .error e
    rw [happ]
  · intro w hw
    have hcontents := runWrites_ok_contents pre fs fs1 hdist hpre w hw
    have hfsb : fsb.files = fs1.files := by
      have hf := @txWriteFileFs_error_files fs1 bad.path bad.src bad.size e
        (by rw [htx])
      rw [htx] at hf
      exact hf
    rw [happ]
    show findFile fsb.files (normalizePath w.path) = some (w.src.take w.size)
    rw [hfsb]
    exact hcontents

/-- C9 witness: `/a` is written successfully, the follow-up write to `/a/b`
fails because `/a` is a file, and `/a` keeps its content. -/
theorem c9_witness :
    (beginTransaction noopOps
        (⟨some ⟨[], []⟩, ⟨true, 0, 0⟩⟩ : Manager NoOpUsbGadget)
        (fun fs0 => runWrites fs0
          ([⟨"/a", [1], 1⟩] ++ [⟨"/a/b", [2], 1⟩]))).1 =
      .error (.wrapped "failed to ensure directory"
        (.wrapped "failed to create directory /a"
          (.backend "cannot create directory over existing file"))) ∧
    ((beginTransaction noopOps
        (⟨some ⟨[], []⟩, ⟨true, 0, 0⟩⟩ : Manager NoOpUsbGadget)
        (fun fs0 => runWrites fs0
          ([⟨"/a", [1], 1⟩] ++ [⟨"/a/b", [2], 1⟩]))).2).filesystem =
      some (runWrites ⟨[], []⟩ ([⟨"/a", [1], 1⟩] ++ [⟨"/a/b", [2], 1⟩])).2 ∧
    ∀ w ∈ [(⟨"/a", [1], 1⟩ : WriteSpec)],
      findFile ((runWrites ⟨[], []⟩
          ([⟨"/a", [1], 1⟩] ++ [⟨"/a/b", [2], 1⟩])).2).files
        (normalizePath w.path) = some (w.src.take w.size) :=
  c9_partial_commit ⟨some ⟨[], []⟩, ⟨true, 0, 0⟩⟩ ⟨[], []⟩
    ⟨[], [("/a", [1])]⟩ [⟨"/a", [1], 1⟩] ⟨"/a/b", [2], 1⟩
    (.wrapped "failed to ensure directory"
      (.wrapped "failed to create directory /a"
        (.backend "cannot create directory over existing file")))
    rfl rfl rfl (by simp)

end EmbroideryBuddy
